import Mathlib

/-!
Verification of the sock-graveyard backend against its specification.

The development shallowly embeds the Python backend
(`backend/app/db_utils.py`, `backend/app/embedding.py`,
`backend/app/services/clip_embedding.py`, `backend/app/routers/singles.py`,
`backend/app/routers/matches.py`) in Lean 4.  Python floats are modelled by
real numbers, database rows by records, and the filesystem by the list of
existing paths.  Every definition follows the corresponding source function.
-/

namespace SockGraveyard

/-! ## Vector primitives

`np.dot` on equal-length vectors and `np.linalg.norm` (the Euclidean norm). -/

/-- `np.dot` of two vectors (componentwise product summed).  Call sites only
use equal-length vectors. -/
def dot : List ℝ → List ℝ → ℝ
  | x :: xs, y :: ys => x * y + dot xs ys
  | _, _ => 0

/-- `np.linalg.norm`: the Euclidean norm `sqrt (Σ xᵢ²)`. -/
noncomputable def l2norm (v : List ℝ) : ℝ :=
  Real.sqrt (dot v v)

/-- Elementwise division of a vector by a scalar, `v / np.linalg.norm(v)`. -/
noncomputable def normalize (v : List ℝ) : List ℝ :=
  v.map (fun x => x / l2norm v)

/-- Plain cosine similarity `dot(a, b) / (|a| * |b|)` as computed by both
backends of `find_similar_socks` and by `clip_embedding.py`. -/
noncomputable def cosineSimilarity (a b : List ℝ) : ℝ :=
  dot a b / (l2norm a * l2norm b)

/-- `EmbeddingService.calculate_similarity` (`backend/app/embedding.py`):
normalize both embeddings, then return their dot product, with NO remapping
of the result. -/
noncomputable def calculate_similarity (embedding1 embedding2 : List ℝ) : ℝ :=
  dot (normalize embedding1) (normalize embedding2)

/-- `CLIPEmbeddingService.calculate_similarity`
(`backend/app/services/clip_embedding.py`): cosine similarity remapped from
`[-1, 1]` to `[0, 1]`. -/
noncomputable def clip_calculate_similarity (embedding1 embedding2 : List ℝ) : ℝ :=
  (dot embedding1 embedding2 / (l2norm embedding1 * l2norm embedding2) + 1) / 2

theorem dot_comm (a b : List ℝ) : dot a b = dot b a := by
  induction a generalizing b with
  | nil => cases b <;> simp [dot]
  | cons x xs ih =>
    cases b with
    | nil => simp [dot]
    | cons y ys => simp [dot, ih, mul_comm]

theorem dot_self_nonneg (a : List ℝ) : 0 ≤ dot a a := by
  induction a with
  | nil => simp [dot]
  | cons x xs ih => simpa [dot] using add_nonneg (mul_self_nonneg x) ih

/-- Cauchy–Schwarz for list dot products. -/
theorem dot_sq_le (a b : List ℝ) : (dot a b) ^ 2 ≤ dot a a * dot b b := by
  induction a generalizing b with
  | nil => cases b <;> simp [dot]
  | cons x xs ih =>
    cases b with
    | nil => simp [dot, mul_nonneg (dot_self_nonneg (x :: xs)) (le_refl 0)]
    | cons y ys =>
      have h := ih ys
      have hA := dot_self_nonneg xs
      have hB := dot_self_nonneg ys
      simp only [dot]
      rcases eq_or_lt_of_le hB with hB0 | hBpos
      · have hd : dot xs ys = 0 := by nlinarith [sq_nonneg (dot xs ys)]
        rw [hd, ← hB0]
        nlinarith [mul_nonneg hA (sq_nonneg y)]
      · nlinarith [sq_nonneg (x * dot ys ys - y * dot xs ys),
          mul_nonneg (sq_nonneg y) (sub_nonneg.mpr h),
          mul_nonneg hB (sub_nonneg.mpr h)]

theorem l2norm_nonneg (v : List ℝ) : 0 ≤ l2norm v :=
  Real.sqrt_nonneg _

theorem l2norm_pos (v : List ℝ) (h : 0 < dot v v) : 0 < l2norm v :=
  Real.sqrt_pos.mpr h

theorem l2norm_sq (v : List ℝ) : l2norm v * l2norm v = dot v v :=
  Real.mul_self_sqrt (dot_self_nonneg v)

theorem abs_dot_le (a b : List ℝ) : |dot a b| ≤ l2norm a * l2norm b := by
  have h1 : |dot a b| ^ 2 ≤ (l2norm a * l2norm b) ^ 2 := by
    have : (l2norm a * l2norm b) ^ 2 = dot a a * dot b b := by
      have ha := l2norm_sq a
      have hb := l2norm_sq b
      ring_nf
      nlinarith [ha, hb]
    rw [this, sq_abs]
    exact dot_sq_le a b
  have h2 : 0 ≤ l2norm a * l2norm b := mul_nonneg (l2norm_nonneg a) (l2norm_nonneg b)
  exact abs_le_of_sq_le_sq' (by simpa [sq_abs] using h1) h2 |>.2

/-- `cosineSimilarity` lies in `[-1, 1]` for vectors of positive norm. -/
theorem cosineSimilarity_mem_Icc (a b : List ℝ) (ha : 0 < dot a a) (hb : 0 < dot b b) :
    -1 ≤ cosineSimilarity a b ∧ cosineSimilarity a b ≤ 1 := by
  have hprod : 0 < l2norm a * l2norm b := mul_pos (l2norm_pos a ha) (l2norm_pos b hb)
  have habs := abs_dot_le a b
  constructor
  · rw [cosineSimilarity, le_div_iff hprod]
    have := neg_abs_le (dot a b)
    nlinarith [habs]
  · rw [cosineSimilarity, div_le_one hprod]
    exact le_trans (le_abs_self _) habs

theorem cosineSimilarity_comm (a b : List ℝ) :
    cosineSimilarity a b = cosineSimilarity b a := by
  unfold cosineSimilarity
  rw [dot_comm a b]
  ring

theorem cosineSimilarity_self (a : List ℝ) (ha : 0 < dot a a) :
    cosineSimilarity a a = 1 := by
  unfold cosineSimilarity
  rw [l2norm_sq]
  exact div_self (ne_of_gt ha)

/-- Scalar factors pull out of `dot` on the left list. -/
theorem dot_map_div_left (a b : List ℝ) (c : ℝ) :
    dot (a.map (fun x => x / c)) b = dot a b / c := by
  induction a generalizing b with
  | nil => cases b <;> simp [dot]
  | cons x xs ih =>
    cases b with
    | nil => simp [dot]
    | cons y ys => simp [dot, ih, div_mul_eq_mul_div, add_div]

/-- Scalar factors pull out of `dot` on the right list. -/
theorem dot_map_div_right (a b : List ℝ) (c : ℝ) :
    dot a (b.map (fun x => x / c)) = dot a b / c := by
  rw [dot_comm, dot_map_div_left, dot_comm]

/-- `EmbeddingService.calculate_similarity` computes the plain (unmapped)
cosine similarity. -/
theorem calculate_similarity_eq_cosine (a b : List ℝ) :
    calculate_similarity a b = cosineSimilarity a b := by
  unfold calculate_similarity normalize cosineSimilarity
  rw [dot_map_div_left, dot_map_div_right, div_div]
  ring

/-! ## Stable descending sort

Python's `list.sort(key=..., reverse=True)` and SQL `ORDER BY ... DESC` are
modelled by a stable insertion sort on a real-valued key: a new element is
placed before the first element with a strictly smaller key, so elements with
equal keys keep their original relative order. -/

/-- Insert `x` before the first element whose key is strictly smaller. -/
noncomputable def insertByDesc (key : α → ℝ) (x : α) : List α → List α
  | [] => [x]
  | y :: ys => if key y < key x then x :: y :: ys else y :: insertByDesc key x ys

/-- Stable sort by descending key. -/
noncomputable def sortByDesc (key : α → ℝ) (l : List α) : List α :=
  l.foldl (fun acc x => insertByDesc key x acc) []

theorem mem_insertByDesc (key : α → ℝ) (x a : α) (l : List α) :
    a ∈ insertByDesc key x l ↔ a = x ∨ a ∈ l := by
  induction l with
  | nil => simp [insertByDesc]
  | cons y ys ih =>
    simp only [insertByDesc]
    split
    · simp
    · simp [ih]
      tauto

theorem length_insertByDesc (key : α → ℝ) (x : α) (l : List α) :
    (insertByDesc key x l).length = l.length + 1 := by
  induction l with
  | nil => simp [insertByDesc]
  | cons y ys ih =>
    simp only [insertByDesc]
    split <;> simp [ih]

theorem sortByDesc_go_mem (key : α → ℝ) (a : α) (l acc : List α) :
    a ∈ l.foldl (fun acc x => insertByDesc key x acc) acc ↔ a ∈ acc ∨ a ∈ l := by
  induction l generalizing acc with
  | nil => simp
  | cons y ys ih =>
    simp only [List.foldl_cons, ih, mem_insertByDesc, List.mem_cons]
    tauto

theorem mem_sortByDesc (key : α → ℝ) (a : α) (l : List α) :
    a ∈ sortByDesc key l ↔ a ∈ l := by
  simp [sortByDesc, sortByDesc_go_mem]

theorem sortByDesc_go_length (key : α → ℝ) (l acc : List α) :
    (l.foldl (fun acc x => insertByDesc key x acc) acc).length = acc.length + l.length := by
  induction l generalizing acc with
  | nil => simp
  | cons y ys ih => simp [ih, length_insertByDesc]; omega

theorem length_sortByDesc (key : α → ℝ) (l : List α) :
    (sortByDesc key l).length = l.length := by
  simp [sortByDesc, sortByDesc_go_length]

/-- Inserting commutes with mapping `f` when `f` transforms the key
monotonically. -/
theorem insertByDesc_map (key₁ : α → ℝ) (key₂ : β → ℝ) (f : α → β)
    (hmono : ∀ a b : α, key₂ (f a) < key₂ (f b) ↔ key₁ a < key₁ b)
    (x : α) (l : List α) :
    insertByDesc key₂ (f x) (l.map f) = (insertByDesc key₁ x l).map f := by
  induction l with
  | nil => simp [insertByDesc]
  | cons y ys ih =>
    simp only [List.map_cons, insertByDesc, hmono]
    split <;> simp [ih]

/-- Sorting commutes with mapping `f` when `f` transforms the key
monotonically. -/
theorem sortByDesc_map (key₁ : α → ℝ) (key₂ : β → ℝ) (f : α → β)
    (hmono : ∀ a b : α, key₂ (f a) < key₂ (f b) ↔ key₁ a < key₁ b)
    (l : List α) :
    sortByDesc key₂ (l.map f) = (sortByDesc key₁ l).map f := by
  unfold sortByDesc
  suffices h : ∀ acc : List α,
      (l.map f).foldl (fun acc x => insertByDesc key₂ x acc) (acc.map f) =
      (l.foldl (fun acc x => insertByDesc key₁ x acc) acc).map f by
    simpa using h []
  induction l with
  | nil => simp
  | cons y ys ih =>
    intro acc
    simp only [List.map_cons, List.foldl_cons]
    rw [insertByDesc_map key₁ key₂ f hmono, ih]

/-! ## `find_similar_socks` (`backend/app/db_utils.py`)

The claim-relevant state is the `socks` table: each row has an id, an owner,
an optional stored embedding and the matched flag. -/

/-- A row of the `socks` table as seen by `find_similar_socks`. -/
structure DbSock where
  id : ℕ
  user_id : ℕ
  embedding : Option (List ℝ)
  is_matched : Bool

/-- pgvector's `<=>` cosine-distance operator.  Modelled from the spec and
pgvector's documented semantics (the operator itself is an external database
extension): cosine distance is one minus cosine similarity. -/
noncomputable def pgCosineDistance (a b : List ℝ) : ℝ :=
  1 - cosineSimilarity a b

/-- What the PostgreSQL query computes for one row: `NULL` embeddings are
skipped, the `WHERE` clause keeps the owner's unmatched rows whose similarity
`1 - (embedding <=> query)` reaches the threshold, and the kept row is paired
with that similarity. -/
noncomputable def pgRow (embedding : List ℝ) (user_id : ℕ) (threshold : ℝ)
    (s : DbSock) : Option (DbSock × ℝ) :=
  match s.embedding with
  | none => none
  | some e =>
    let similarity := 1 - pgCosineDistance e embedding
    if s.user_id = user_id ∧ s.is_matched = false ∧ threshold ≤ similarity then
      some (s, similarity)
    else none

/-- The PostgreSQL branch of `find_similar_socks`: filter, order by the
similarity descending, cap at `limit`. -/
noncomputable def find_similar_socks_pg (db : List DbSock) (embedding : List ℝ)
    (user_id : ℕ) (limit : ℕ) (threshold : ℝ) : List (DbSock × ℝ) :=
  (sortByDesc Prod.snd (db.filterMap (pgRow embedding user_id threshold))).take limit

/-- The SQLAlchemy pre-filter of the SQLite branch: the owner's socks with a
non-null embedding and `is_matched == False`. -/
def sqliteEligible (user_id : ℕ) (s : DbSock) : Bool :=
  s.user_id == user_id && s.embedding.isSome && !s.is_matched

/-- The loop body of the SQLite branch: decode the embedding, compute the
cosine similarity remapped from `[-1, 1]` to `[0, 1]`, keep the sock when the
score reaches the threshold. -/
noncomputable def sqliteRow (embedding : List ℝ) (threshold : ℝ)
    (s : DbSock) : Option (DbSock × ℝ) :=
  match s.embedding with
  | none => none
  | some e =>
    let similarity := (cosineSimilarity embedding e + 1) / 2
    if threshold ≤ similarity then some (s, similarity) else none

/-- The SQLite branch of `find_similar_socks`: load the eligible socks, score
and threshold them, sort by score descending, cap at `limit`. -/
noncomputable def find_similar_socks_sqlite (db : List DbSock) (embedding : List ℝ)
    (user_id : ℕ) (limit : ℕ) (threshold : ℝ) : List (DbSock × ℝ) :=
  (sortByDesc Prod.snd
    ((db.filter (sqliteEligible user_id)).filterMap (sqliteRow embedding threshold))).take limit

/-- The score remapping `[-1, 1] → [0, 1]` that separates the two backends. -/
noncomputable def remapScore (p : DbSock × ℝ) : DbSock × ℝ :=
  (p.1, (p.2 + 1) / 2)

theorem filterMap_map_eq_filter_filterMap {α β γ : Type} (f : α → Option β)
    (g : α → Option γ) (p : α → Bool) (m : β → γ)
    (h : ∀ a, (f a).map m = if p a then g a else none) (l : List α) :
    (l.filterMap f).map m = (l.filter p).filterMap g := by
  induction l with
  | nil => simp
  | cons x xs ih =>
    have hx := h x
    by_cases hp : p x = true
    · rw [if_pos hp] at hx
      cases hf : f x with
      | none => simp [hf] at hx; simp [List.filterMap_cons, List.filter_cons, hf, hp, ih, ← hx]
      | some b => simp [hf] at hx; simp [List.filterMap_cons, List.filter_cons, hf, hp, ih, ← hx]
    · rw [if_neg hp] at hx
      cases hf : f x with
      | none => simp [List.filterMap_cons, List.filter_cons, hf, hp, ih]
      | some b => simp [hf] at hx

/-- Pointwise comparison of the two per-row computations: at threshold
`2θ - 1` the PostgreSQL row, remapped, is exactly the SQLite row at
threshold `θ`. -/
theorem pgRow_remap (embedding : List ℝ) (user_id : ℕ) (threshold : ℝ) (s : DbSock) :
    (pgRow embedding user_id (2 * threshold - 1) s).map remapScore =
      if sqliteEligible user_id s then sqliteRow embedding threshold s else none := by
  unfold pgRow sqliteEligible sqliteRow pgCosineDistance
  cases hemb : s.embedding with
  | none => simp
  | some e =>
    have hsim : 1 - (1 - cosineSimilarity e embedding) = cosineSimilarity e embedding := by
      ring
    by_cases hu : s.user_id = user_id
    · by_cases hm : s.is_matched = false
      · by_cases hc : threshold ≤ (cosineSimilarity embedding e + 1) / 2
        · have hc' : 2 * threshold - 1 ≤ 1 - (1 - cosineSimilarity e embedding) := by
            rw [hsim, cosineSimilarity_comm e embedding]; linarith
          simp [hu, hm, hc, hc', remapScore, hsim, cosineSimilarity_comm e embedding]
          linarith
        · have hc' : ¬(2 * threshold - 1 ≤ 1 - (1 - cosineSimilarity e embedding)) := by
            rw [hsim, cosineSimilarity_comm e embedding]
            intro h
            exact hc (by linarith)
          simp [hu, hm, hc, hc']
          rw [cosineSimilarity_comm e embedding]
          push_neg at hc
          linarith
      · have hm' : s.is_matched = true := by revert hm; cases s.is_matched <;> simp
        simp [hu, hm']
    · simp [hu]

theorem remapScore_mono (a b : DbSock × ℝ) :
    (remapScore a).2 < (remapScore b).2 ↔ a.2 < b.2 := by
  simp only [remapScore]
  constructor <;> intro h <;> linarith

/-- C1 (amended): for every database, query embedding, owner, limit and
threshold, the two backends of `find_similar_socks` apply the same
eligibility filter, rank in the same (descending-cosine) order and cap at the
same limit, but they score and threshold on different scales: the PostgreSQL
branch on the raw cosine similarity, the SQLite branch on the cosine remapped
from `[-1, 1]` to `[0, 1]`.  Remapping the PostgreSQL scores with
`c ↦ (c + 1) / 2` and its threshold with `θ ↦ 2θ - 1` yields exactly the
SQLite result; with the SAME threshold the candidate sets differ (see the
counterexample). -/
theorem find_similar_socks_backends_agree_up_to_remap
    (db : List DbSock) (embedding : List ℝ) (user_id : ℕ) (limit : ℕ) (threshold : ℝ) :
    (find_similar_socks_pg db embedding user_id limit (2 * threshold - 1)).map remapScore =
      find_similar_socks_sqlite db embedding user_id limit threshold := by
  unfold find_similar_socks_pg find_similar_socks_sqlite
  rw [List.map_take]
  rw [show ((sortByDesc Prod.snd
        (db.filterMap (pgRow embedding user_id (2 * threshold - 1)))).map remapScore) =
      sortByDesc Prod.snd
        ((db.filterMap (pgRow embedding user_id (2 * threshold - 1))).map remapScore) from
    (sortByDesc_map Prod.snd Prod.snd remapScore remapScore_mono _).symm]
  rw [filterMap_map_eq_filter_filterMap (pgRow embedding user_id (2 * threshold - 1))
    (sqliteRow embedding threshold) (sqliteEligible user_id) remapScore
    (pgRow_remap embedding user_id threshold) db]

theorem dot_33_44 : dot [(3 : ℝ), 4] [3, 4] = 25 := by
  norm_num [dot]

theorem dot_55_00 : dot [(5 : ℝ), 0] [5, 0] = 25 := by
  norm_num [dot]

theorem l2norm_three_four : l2norm [(3 : ℝ), 4] = 5 := by
  rw [l2norm, dot_33_44, show (25 : ℝ) = 5 ^ 2 by norm_num,
    Real.sqrt_sq (by norm_num : (0 : ℝ) ≤ 5)]

theorem l2norm_five_zero : l2norm [(5 : ℝ), 0] = 5 := by
  rw [l2norm, dot_55_00, show (25 : ℝ) = 5 ^ 2 by norm_num,
    Real.sqrt_sq (by norm_num : (0 : ℝ) ≤ 5)]

theorem cos_three_four_five_zero : cosineSimilarity [(3 : ℝ), 4] [5, 0] = 3 / 5 := by
  rw [cosineSimilarity, l2norm_three_four, l2norm_five_zero,
    show dot [(3 : ℝ), 4] [5, 0] = 15 by norm_num [dot]]
  norm_num

theorem cos_five_zero_three_four : cosineSimilarity [(5 : ℝ), 0] [3, 4] = 3 / 5 := by
  rw [cosineSimilarity, l2norm_three_four, l2norm_five_zero,
    show dot [(5 : ℝ), 0] [3, 4] = 15 by norm_num [dot]]
  norm_num

/-- C1 counterexample: one owner (id 7) with one stored unmatched sock whose
embedding is `[5, 0]`, query embedding `[3, 4]` (cosine similarity `3/5`),
threshold `3/4`, limit `10`.  The PostgreSQL branch returns no candidate
(it compares the raw cosine `3/5` with `3/4`) while the SQLite branch returns
the sock with score `4/5` (it compares the remapped `(3/5 + 1)/2 = 4/5` with
`3/4`): the two backends do NOT return the same candidates for the same
dataset, query, threshold and limit. -/
theorem find_similar_socks_backends_disagree :
    find_similar_socks_pg [⟨1, 7, some [5, 0], false⟩] [3, 4] 7 10 (3 / 4) = [] ∧
    find_similar_socks_sqlite [⟨1, 7, some [5, 0], false⟩] [3, 4] 7 10 (3 / 4) =
      [(⟨1, 7, some [5, 0], false⟩, 4 / 5)] := by
  constructor
  · unfold find_similar_socks_pg
    have hrow : pgRow [(3 : ℝ), 4] 7 (3 / 4) ⟨1, 7, some [5, 0], false⟩ = none := by
      unfold pgRow pgCosineDistance
      simp only [cos_five_zero_three_four]
      norm_num
    simp [hrow, sortByDesc]
  · unfold find_similar_socks_sqlite
    have helig : sqliteEligible 7 ⟨1, 7, some [5, 0], false⟩ = true := rfl
    have hrow : sqliteRow [(3 : ℝ), 4] (3 / 4) ⟨1, 7, some [5, 0], false⟩ =
        some (⟨1, 7, some [5, 0], false⟩, 4 / 5) := by
      unfold sqliteRow
      simp only [cos_three_four_five_zero]
      norm_num
    simp [helig, hrow, sortByDesc, insertByDesc]


/-! ## Similarity score properties (embedding.py vs clip_embedding.py) -/

theorem l2norm_one_zero : l2norm [(1 : ℝ), 0] = 1 := by
  rw [l2norm, show dot [(1 : ℝ), 0] [1, 0] = 1 by norm_num [dot]]
  exact Real.sqrt_one

theorem l2norm_neg_one_zero : l2norm [(-1 : ℝ), 0] = 1 := by
  rw [l2norm, show dot [(-1 : ℝ), 0] [-1, 0] = 1 by norm_num [dot]]
  exact Real.sqrt_one

theorem cos_one_zero_neg_one_zero : cosineSimilarity [(1 : ℝ), 0] [-1, 0] = -1 := by
  rw [cosineSimilarity, l2norm_one_zero, l2norm_neg_one_zero,
    show dot [(1 : ℝ), 0] [-1, 0] = -1 by norm_num [dot]]
  norm_num

/-- C8 counterexample: `EmbeddingService.calculate_similarity`
(`backend/app/embedding.py`), the score computed and returned by the mounted
`/singles/{id}/search` endpoint, is NOT the remapped cosine: on the non-zero
embeddings `[1, 0]` and `[-1, 0]` it returns `-1`, which is negative (hence
not in `[0, 1]`) and differs from `(cos + 1) / 2 = 0`. -/
theorem calculate_similarity_not_remapped :
    calculate_similarity [(1 : ℝ), 0] [-1, 0] = -1 ∧
    calculate_similarity [(1 : ℝ), 0] [-1, 0] < 0 ∧
    (cosineSimilarity [(1 : ℝ), 0] [-1, 0] + 1) / 2 = 0 := by
  have h := calculate_similarity_eq_cosine [(1 : ℝ), 0] [-1, 0]
  rw [h, cos_one_zero_neg_one_zero]
  norm_num

/-- C8 (amended): for all non-zero embedding vectors,
`CLIPEmbeddingService.calculate_similarity` equals the cosine remapped from
`[-1, 1]` to `[0, 1]` and hence lies in `[0, 1]`, while the
`EmbeddingService.calculate_similarity` used by the mounted `/singles` search
returns the RAW cosine, which lies in `[-1, 1]` and can be negative.  Both
are symmetric, and both score identical embeddings at exactly `1`. -/
theorem similarity_score_properties (a b : List ℝ)
    (ha : 0 < dot a a) (hb : 0 < dot b b) :
    clip_calculate_similarity a b = (cosineSimilarity a b + 1) / 2 ∧
    0 ≤ clip_calculate_similarity a b ∧
    clip_calculate_similarity a b ≤ 1 ∧
    clip_calculate_similarity a b = clip_calculate_similarity b a ∧
    clip_calculate_similarity a a = 1 ∧
    calculate_similarity a b = cosineSimilarity a b ∧
    -1 ≤ calculate_similarity a b ∧
    calculate_similarity a b ≤ 1 ∧
    calculate_similarity a b = calculate_similarity b a ∧
    calculate_similarity a a = 1 := by
  have hcc : ∀ x y : List ℝ, clip_calculate_similarity x y = (cosineSimilarity x y + 1) / 2 := by
    intro x y
    rw [clip_calculate_similarity, cosineSimilarity]
  obtain ⟨hlo, hhi⟩ := cosineSimilarity_mem_Icc a b ha hb
  refine ⟨hcc a b, ?_, ?_, ?_, ?_, calculate_similarity_eq_cosine a b, ?_, ?_, ?_, ?_⟩
  · rw [hcc a b]; linarith
  · rw [hcc a b]; linarith
  · rw [hcc a b, hcc b a, cosineSimilarity_comm a b]
  · rw [hcc a a, cosineSimilarity_self a ha]; norm_num
  · rw [calculate_similarity_eq_cosine a b]; exact hlo
  · rw [calculate_similarity_eq_cosine a b]; exact hhi
  · rw [calculate_similarity_eq_cosine a b, calculate_similarity_eq_cosine b a,
      cosineSimilarity_comm a b]
  · rw [calculate_similarity_eq_cosine a a, cosineSimilarity_self a ha]

/-- Witness for the C8 amended theorem at the non-zero embeddings `[1, 0]`
and `[0, 1]`. -/
theorem similarity_score_properties_witness :
    0 < dot [(1 : ℝ), 0] [1, 0] ∧ 0 < dot [(0 : ℝ), 1] [0, 1] ∧
    calculate_similarity [(1 : ℝ), 0] [(1 : ℝ), 0] = 1 :=
  ⟨by norm_num [dot], by norm_num [dot],
    (similarity_score_properties [(1 : ℝ), 0] [(0 : ℝ), 1]
      (by norm_num [dot]) (by norm_num [dot])).2.2.2.2.2.2.2.2.2⟩

/-! ## Embedding serialization (`db_utils.py`, `embedding.py`)

Stored scalar values are modelled exactly: `ndarray.tolist` maps each float32
to the mathematically equal Python float, and Python's `json.dumps` /
`json.loads` round-trip floats exactly (shortest-repr serialization), so the
JSON text is modelled by the exact sequence of numbers it denotes. -/

/-- The database-side value of an embedding column: a pgvector/native list, a
JSON string (SQLite), or SQL NULL. -/
inductive DbEmbedding where
  | vec (v : List ℚ)
  | jsonText (v : List ℚ)
  | null
deriving DecidableEq

/-- `embedding_to_db` (`backend/app/db_utils.py`): a plain list for
PostgreSQL, `json.dumps(embedding.tolist())` for SQLite. -/
def embedding_to_db (isPostgres : Bool) (embedding : List ℚ) : DbEmbedding :=
  if isPostgres then .vec embedding else .jsonText embedding

/-- `embedding_from_db` (`backend/app/db_utils.py`): `None` maps to `None`,
JSON text is parsed back, lists and pgvector values are read elementwise. -/
def embedding_from_db : DbEmbedding → Option (List ℚ)
  | .null => none
  | .jsonText v => some v
  | .vec v => some v

/-- The four little-endian bytes of one float32, modelled by its 32-bit
pattern (value identity of bit patterns implies numeric identity). -/
def float32ToBytes (w : ℕ) : List ℕ :=
  [w % 256, w / 256 % 256, w / 65536 % 256, w / 16777216 % 256]

/-- `ndarray.tobytes()` of a float32 vector: concatenation of the 4-byte
little-endian encodings. -/
def embedding_tobytes (v : List ℕ) : List ℕ :=
  (v.map float32ToBytes).flatten

/-- `EmbeddingService.embedding_from_bytes` (`backend/app/embedding.py`):
`np.frombuffer(embedding_bytes, dtype=np.float32)` regroups the byte string
into 4-byte little-endian float32 words. -/
def embedding_from_bytes : List ℕ → List ℕ
  | b0 :: b1 :: b2 :: b3 :: rest =>
    (b0 + 256 * b1 + 65536 * b2 + 16777216 * b3) :: embedding_from_bytes rest
  | _ => []

/-- C9: serializing an embedding for either backend and reading it back
yields the identical vector, and `embedding_from_bytes` inverts the float32
byte serialization (for genuine 32-bit words). -/
theorem embedding_serialization_roundtrip (isPostgres : Bool) (v : List ℚ)
    (w : List ℕ) (hw : ∀ x ∈ w, x < 4294967296) :
    embedding_from_db (embedding_to_db isPostgres v) = some v ∧
    embedding_from_bytes (embedding_tobytes w) = w := by
  constructor
  · cases isPostgres <;> rfl
  · induction w with
    | nil => rfl
    | cons x xs ih =>
      have hx : x < 4294967296 := hw x (List.mem_cons_self x xs)
      have hxs : ∀ y ∈ xs, y < 4294967296 := fun y hy => hw y (List.mem_cons_of_mem x hy)
      show embedding_from_bytes (float32ToBytes x ++ embedding_tobytes xs) = x :: xs
      rw [float32ToBytes]
      show (x % 256 + 256 * (x / 256 % 256) + 65536 * (x / 65536 % 256) +
        16777216 * (x / 16777216 % 256)) :: embedding_from_bytes (embedding_tobytes xs) = x :: xs
      rw [ih hxs]
      congr 1
      omega

/-- Witness for C9 at a two-element byte-pattern vector. -/
theorem embedding_serialization_roundtrip_witness :
    (∀ x ∈ [0, 4294967295], x < 4294967296) ∧
    embedding_from_bytes (embedding_tobytes [0, 4294967295]) = [0, 4294967295] :=
  ⟨by decide, (embedding_serialization_roundtrip true [] [0, 4294967295] (by decide)).2⟩

/-! ## Perceptual color similarity (`clip_embedding.py`)

Python's `int(s, 16)` is modelled exactly for ASCII strings: it strips
leading and trailing whitespace, accepts an optional sign, an optional
`0x`/`0X` prefix and hexadecimal digits of either case with single
underscores between digits (one is also allowed directly after the prefix).
On non-ASCII input Python additionally strips Unicode whitespace and
accepts Unicode decimal digits, which this model does not cover: the model
may report failure where Python succeeds.  Therefore every statement below
about FAILING inputs carries an all-ASCII side condition, while a successful
parse (which only ever consumes ASCII characters) agrees with Python on any
string. -/

/-- Value of one hexadecimal digit, either case (codes 48–57 are `0`–`9`,
97–102 are `a`–`f`, 65–70 are `A`–`F`). -/
def hexDigitVal (c : Char) : Option ℕ :=
  if 48 ≤ c.toNat ∧ c.toNat ≤ 57 then some (c.toNat - 48)
  else if 97 ≤ c.toNat ∧ c.toNat ≤ 102 then some (c.toNat - 97 + 10)
  else if 65 ≤ c.toNat ∧ c.toNat ≤ 70 then some (c.toNat - 65 + 10)
  else none

/-- The ASCII characters Python's `int` strips around the number: the ASCII
members of `Py_UNICODE_ISSPACE` (codes 9–13, 28–31 and the space 32). -/
def isPyAsciiSpace (c : Char) : Bool :=
  (9 ≤ c.toNat && c.toNat ≤ 13) || (28 ≤ c.toNat && c.toNat ≤ 32)

/-- Digits after the first one: a single underscore is allowed between two
digits, never doubled, never trailing. -/
def hexDigitsLoop (acc : ℕ) : List Char → Option ℕ
  | [] => some acc
  | c :: cs =>
    if c == '_' then
      match cs with
      | [] => none
      | c2 :: cs2 =>
        match hexDigitVal c2 with
        | some d => hexDigitsLoop (16 * acc + d) cs2
        | none => none
    else
      match hexDigitVal c with
      | some d => hexDigitsLoop (16 * acc + d) cs
      | none => none

/-- One or more hex digits with optional single underscores between them
(the digit part may not start with an underscore). -/
def hexDigitsUnd : List Char → Option ℕ
  | c :: cs =>
    match hexDigitVal c with
    | some d => hexDigitsLoop d cs
    | none => none
  | [] => none

/-- The number part of `int(s, 16)`: an optional `0x`/`0X` prefix — with an
optional single underscore directly after it — followed by the digits. -/
def parsePyHexBody : List Char → Option ℕ
  | [] => hexDigitsUnd []
  | [c0] => hexDigitsUnd [c0]
  | c0 :: x :: rest =>
    if c0 == '0' && (x == 'x' || x == 'X') then
      match rest with
      | [] => hexDigitsUnd []
      | r0 :: rest2 => if r0 == '_' then hexDigitsUnd rest2 else hexDigitsUnd (r0 :: rest2)
    else hexDigitsUnd (c0 :: x :: rest)

/-- Sign handling of `int(s, 16)` on the whitespace-stripped text. -/
def parsePyIntStripped : List Char → Option ℤ
  | [] => (parsePyHexBody []).map (fun (n : ℕ) => (n : ℤ))
  | c :: rest =>
    if c == '+' then (parsePyHexBody rest).map (fun (n : ℕ) => (n : ℤ))
    else if c == '-' then (parsePyHexBody rest).map (fun (n : ℕ) => -(n : ℤ))
    else (parsePyHexBody (c :: rest)).map (fun (n : ℕ) => (n : ℤ))

/-- Python's `int(s, 16)`, exact on ASCII strings: strip whitespace from both
ends, then parse sign, prefix and digits; `none` models `ValueError`. -/
def pyInt16 (cs : List Char) : Option ℤ :=
  parsePyIntStripped ((cs.dropWhile isPyAsciiSpace).reverse.dropWhile isPyAsciiSpace).reverse

/-- The inner `hex_to_rgb` of `calculate_color_similarity`: strip leading
`#` characters, then convert the slices `[0:2]`, `[2:4]`, `[4:6]` with
`int(_, 16)`. -/
def hex_to_rgb (s : String) : Option (ℤ × ℤ × ℤ) :=
  let t := s.toList.dropWhile (fun c => c == '#')
  match pyInt16 (t.take 2), pyInt16 ((t.drop 2).take 2),
      pyInt16 ((t.drop 4).take 2) with
  | some r, some g, some b => some (r, g, b)
  | _, _, _ => none

/-- `CLIPEmbeddingService.calculate_color_similarity`
(`backend/app/services/clip_embedding.py`): mean-red-weighted Euclidean
distance of the two parsed colors, normalized by 765 and turned into a
similarity; every parsing exception is caught and yields `0.0`. -/
noncomputable def calculate_color_similarity (hex_color1 hex_color2 : String) : ℝ :=
  match hex_to_rgb hex_color1, hex_to_rgb hex_color2 with
  | some (r1, g1, b1), some (r2, g2, b2) =>
    let r_mean : ℝ := ((r1 : ℝ) + (r2 : ℝ)) / 2
    let delta_r : ℝ := (r1 : ℝ) - (r2 : ℝ)
    let delta_g : ℝ := (g1 : ℝ) - (g2 : ℝ)
    let delta_b : ℝ := (b1 : ℝ) - (b2 : ℝ)
    let weight_r : ℝ := 2 + r_mean / 256
    let weight_g : ℝ := 4
    let weight_b : ℝ := 2 + (255 - r_mean) / 256
    let distance : ℝ :=
      Real.sqrt (weight_r * delta_r ^ 2 + weight_g * delta_g ^ 2 + weight_b * delta_b ^ 2)
    1 - min (distance / 765) 1
  | _, _ => 0

/-- All characters of a string are ASCII: the fragment on which `pyInt16` is
an exact model of Python's `int(_, 16)`. -/
def isAsciiString (s : String) : Bool :=
  s.toList.all (fun c => decide (c.toNat < 128))

theorem hexDigitVal_le (c : Char) (d : ℕ) (h : hexDigitVal c = some d) : d ≤ 15 := by
  unfold hexDigitVal at h
  split_ifs at h with h1 h2 h3
  · injection h with h
    omega
  · injection h with h
    omega
  · injection h with h
    omega

theorem hexDigitsUnd_le_two (cs : List Char) (v : ℕ) (hlen : cs.length ≤ 2)
    (h : hexDigitsUnd cs = some v) : v ≤ 255 := by
  rcases cs with _ | ⟨c1, _ | ⟨c2, rest⟩⟩
  · simp [hexDigitsUnd] at h
  · unfold hexDigitsUnd at h
    cases hd : hexDigitVal c1 with
    | none => simp [hd] at h
    | some d =>
      simp only [hd] at h
      simp only [hexDigitsLoop] at h
      injection h with h
      have := hexDigitVal_le c1 d hd
      omega
  · have hrest : rest = [] := by
      cases rest with
      | nil => rfl
      | cons _ _ => simp at hlen
    subst hrest
    unfold hexDigitsUnd at h
    cases hd : hexDigitVal c1 with
    | none => simp [hd] at h
    | some d0 =>
      simp only [hd] at h
      have hb0 := hexDigitVal_le c1 d0 hd
      simp only [hexDigitsLoop] at h
      by_cases hc2 : (c2 == '_') = true
      · rw [if_pos hc2] at h
        cases h
      · rw [if_neg hc2] at h
        cases hd2 : hexDigitVal c2 with
        | none => simp [hd2] at h
        | some d1 =>
          simp only [hd2] at h
          have hb1 := hexDigitVal_le c2 d1 hd2
          injection h with h
          omega

theorem parsePyHexBody_le_two (cs : List Char) (v : ℕ) (hlen : cs.length ≤ 2)
    (h : parsePyHexBody cs = some v) : v ≤ 255 := by
  rcases cs with _ | ⟨c0, _ | ⟨x, rest⟩⟩
  · simp [parsePyHexBody, hexDigitsUnd] at h
  · simp only [parsePyHexBody] at h
    exact hexDigitsUnd_le_two _ _ (by simp) h
  · have hrest : rest = [] := by
      cases rest with
      | nil => rfl
      | cons _ _ => simp at hlen
    subst hrest
    simp only [parsePyHexBody] at h
    by_cases hp : (c0 == '0' && (x == 'x' || x == 'X')) = true
    · rw [if_pos hp] at h
      simp [hexDigitsUnd] at h
    · rw [if_neg hp] at h
      exact hexDigitsUnd_le_two _ _ (by simp) h

theorem parsePyIntStripped_le_two (cs : List Char) (v : ℤ) (hlen : cs.length ≤ 2)
    (h : parsePyIntStripped cs = some v) : -255 ≤ v ∧ v ≤ 255 := by
  rcases cs with _ | ⟨c, rest⟩
  · simp [parsePyIntStripped, parsePyHexBody, hexDigitsUnd] at h
  · simp only [parsePyIntStripped] at h
    by_cases hplus : (c == '+') = true
    · rw [if_pos hplus] at h
      obtain ⟨n, hn, hv⟩ := Option.map_eq_some'.mp h
      have := parsePyHexBody_le_two rest n (by simp at hlen; omega) hn
      omega
    · rw [if_neg hplus] at h
      by_cases hminus : (c == '-') = true
      · rw [if_pos hminus] at h
        obtain ⟨n, hn, hv⟩ := Option.map_eq_some'.mp h
        have := parsePyHexBody_le_two rest n (by simp at hlen; omega) hn
        omega
      · rw [if_neg hminus] at h
        obtain ⟨n, hn, hv⟩ := Option.map_eq_some'.mp h
        have := parsePyHexBody_le_two (c :: rest) n hlen hn
        omega

theorem length_dropWhile_le_self {α : Type} (p : α → Bool) (l : List α) :
    (l.dropWhile p).length ≤ l.length := by
  induction l with
  | nil => simp
  | cons a l ih =>
    rw [List.dropWhile_cons]
    split
    · simp
      omega
    · simp

theorem pyInt16_le_two (cs : List Char) (v : ℤ) (hlen : cs.length ≤ 2)
    (h : pyInt16 cs = some v) : -255 ≤ v ∧ v ≤ 255 := by
  unfold pyInt16 at h
  refine parsePyIntStripped_le_two _ _ ?_ h
  have h1 := length_dropWhile_le_self isPyAsciiSpace cs
  have h2 := length_dropWhile_le_self isPyAsciiSpace (cs.dropWhile isPyAsciiSpace).reverse
  simp only [List.length_reverse] at h2 ⊢
  omega

/-- The channel values a successful `hex_to_rgb` can produce: each comes from
`int` on a slice of at most two characters, so it lies in `[-255, 255]`.
Consequently the weighted squared distance inside
`calculate_color_similarity` is non-negative for every reachable input, where
`Real.sqrt` coincides with `np.sqrt`. -/
theorem hex_to_rgb_bounds (s : String) (c : ℤ × ℤ × ℤ) (h : hex_to_rgb s = some c) :
    (-255 ≤ c.1 ∧ c.1 ≤ 255) ∧ (-255 ≤ c.2.1 ∧ c.2.1 ≤ 255) ∧
    (-255 ≤ c.2.2 ∧ c.2.2 ≤ 255) := by
  simp only [hex_to_rgb] at h
  split at h
  · rename_i r g b hr hg hb
    injection h with h
    subst h
    refine ⟨pyInt16_le_two _ _ ?_ hr, pyInt16_le_two _ _ ?_ hg, pyInt16_le_two _ _ ?_ hb⟩ <;>
      exact List.length_take_le _ _
  · cases h

/-- C10: on hex colors that parse, `calculate_color_similarity` lies in
`[0, 1]`, is symmetric, and returns exactly `1` when the two parsed colors
are identical; on failing input it returns `0` instead of raising — stated
for all-ASCII strings, the fragment on which the parser is an exact model of
Python's `int` (the parsed channels lie in `[-255, 255]` by
`hex_to_rgb_bounds`, so the square-root argument is non-negative on every
reachable input). -/
theorem calculate_color_similarity_properties (s1 s2 : String) (c1 c2 : ℤ × ℤ × ℤ)
    (h1 : hex_to_rgb s1 = some c1) (h2 : hex_to_rgb s2 = some c2) :
    0 ≤ calculate_color_similarity s1 s2 ∧
    calculate_color_similarity s1 s2 ≤ 1 ∧
    calculate_color_similarity s1 s2 = calculate_color_similarity s2 s1 ∧
    (c1 = c2 → calculate_color_similarity s1 s2 = 1) ∧
    (∀ t1 t2 : String,
      (isAsciiString t1 = true ∧ hex_to_rgb t1 = none) ∨
        (isAsciiString t2 = true ∧ hex_to_rgb t2 = none) →
      calculate_color_similarity t1 t2 = 0) := by
  obtain ⟨r1, g1, b1⟩ := c1
  obtain ⟨r2, g2, b2⟩ := c2
  have hmal : ∀ t1 t2 : String,
      (isAsciiString t1 = true ∧ hex_to_rgb t1 = none) ∨
        (isAsciiString t2 = true ∧ hex_to_rgb t2 = none) →
      calculate_color_similarity t1 t2 = 0 := by
    intro t1 t2 h
    unfold calculate_color_similarity
    rcases h with ⟨_, h⟩ | ⟨_, h⟩
    · rw [h]
    · rw [h]
      cases hex_to_rgb t1 with
      | none => rfl
      | some c => obtain ⟨x, y, z⟩ := c; rfl
  refine ⟨?_, ?_, ?_, ?_, hmal⟩
  · unfold calculate_color_similarity
    rw [h1, h2]
    simp only
    have : min (Real.sqrt ((2 + ((r1 : ℝ) + (r2 : ℝ)) / 2 / 256) * ((r1 : ℝ) - (r2 : ℝ)) ^ 2 +
        4 * ((g1 : ℝ) - (g2 : ℝ)) ^ 2 +
        (2 + (255 - ((r1 : ℝ) + (r2 : ℝ)) / 2) / 256) * ((b1 : ℝ) - (b2 : ℝ)) ^ 2) / 765) 1 ≤ 1 :=
      min_le_right _ _
    linarith
  · unfold calculate_color_similarity
    rw [h1, h2]
    simp only
    have hd : 0 ≤ Real.sqrt ((2 + ((r1 : ℝ) + (r2 : ℝ)) / 2 / 256) * ((r1 : ℝ) - (r2 : ℝ)) ^ 2 +
        4 * ((g1 : ℝ) - (g2 : ℝ)) ^ 2 +
        (2 + (255 - ((r1 : ℝ) + (r2 : ℝ)) / 2) / 256) * ((b1 : ℝ) - (b2 : ℝ)) ^ 2) :=
      Real.sqrt_nonneg _
    have : (0 : ℝ) ≤ min (Real.sqrt ((2 + ((r1 : ℝ) + (r2 : ℝ)) / 2 / 256) *
        ((r1 : ℝ) - (r2 : ℝ)) ^ 2 + 4 * ((g1 : ℝ) - (g2 : ℝ)) ^ 2 +
        (2 + (255 - ((r1 : ℝ) + (r2 : ℝ)) / 2) / 256) * ((b1 : ℝ) - (b2 : ℝ)) ^ 2) / 765) 1 :=
      le_min (by positivity) (by norm_num)
    linarith
  · unfold calculate_color_similarity
    rw [h1, h2]
    simp only
    have harg : (2 + ((r1 : ℝ) + (r2 : ℝ)) / 2 / 256) * ((r1 : ℝ) - (r2 : ℝ)) ^ 2 +
        4 * ((g1 : ℝ) - (g2 : ℝ)) ^ 2 +
        (2 + (255 - ((r1 : ℝ) + (r2 : ℝ)) / 2) / 256) * ((b1 : ℝ) - (b2 : ℝ)) ^ 2 =
        (2 + ((r2 : ℝ) + (r1 : ℝ)) / 2 / 256) * ((r2 : ℝ) - (r1 : ℝ)) ^ 2 +
        4 * ((g2 : ℝ) - (g1 : ℝ)) ^ 2 +
        (2 + (255 - ((r2 : ℝ) + (r1 : ℝ)) / 2) / 256) * ((b2 : ℝ) - (b1 : ℝ)) ^ 2 := by
      ring
    rw [harg]
  · intro hc
    injection hc with hr hgb
    injection hgb with hg hb
    unfold calculate_color_similarity
    rw [h1, h2]
    simp only
    rw [hr, hg, hb]
    have harg : (2 + ((r2 : ℝ) + (r2 : ℝ)) / 2 / 256) * ((r2 : ℝ) - (r2 : ℝ)) ^ 2 +
        4 * ((g2 : ℝ) - (g2 : ℝ)) ^ 2 +
        (2 + (255 - ((r2 : ℝ) + (r2 : ℝ)) / 2) / 256) * ((b2 : ℝ) - (b2 : ℝ)) ^ 2 = 0 := by
      ring
    rw [harg, Real.sqrt_zero]
    norm_num

/-- Witness for C10 at the well-formed colors `#ff0000` and `#00ff00`. -/
theorem calculate_color_similarity_properties_witness :
    hex_to_rgb "#ff0000" = some (255, 0, 0) ∧
    hex_to_rgb "#00ff00" = some (0, 255, 0) ∧
    calculate_color_similarity "#ff0000" "#ff0000" = 1 :=
  ⟨rfl, rfl,
    (calculate_color_similarity_properties "#ff0000" "#ff0000" (255, 0, 0) (255, 0, 0)
      rfl rfl).2.2.2.1 rfl⟩

/-! ## Color palette extraction (`routers/singles.py`)

`extract_color_palette` is modelled for an RGBA input image: pixels with
alpha `> 128` are kept, k-means clustering (an opaque, seeded sklearn
call) is abstracted as a function from the kept pixel colors to the list of
clusters (center color and member count), and the scoring/selection stages
follow the source line by line.  The non-RGBA branch feeds every pixel into
the same selection pipeline.  Cluster center coordinates are exact rationals
(Python floats); comparisons of the Euclidean color distance against 30 are
modelled as comparisons of the squared distance against 900, which is
equivalent since both sides are non-negative. -/

/-- One RGBA pixel (`Image.getpixel` on an RGBA image). -/
structure RGBA where
  r : ℕ
  g : ℕ
  b : ℕ
  alpha : ℕ
deriving DecidableEq

/-- A k-means cluster: its center color and its pixel count. -/
structure ClusterData where
  color : ℚ × ℚ × ℚ
  frequency : ℕ

/-- Squared Euclidean distance between two colors (`color_distance` squared). -/
def color_distance_sq (c1 c2 : ℚ × ℚ × ℚ) : ℚ :=
  (c1.1 - c2.1) ^ 2 + (c1.2.1 - c2.2.1) ^ 2 + (c1.2.2 - c2.2.2) ^ 2

theorem color_distance_sq_comm (c1 c2 : ℚ × ℚ × ℚ) :
    color_distance_sq c1 c2 = color_distance_sq c2 c1 := by
  unfold color_distance_sq
  ring

/-- `color_saturation`: divide the channels by 255, then
`(max - min) / max`, or `0` when the maximum is `0`. -/
def color_saturation (color : ℚ × ℚ × ℚ) : ℚ :=
  let r := color.1 / 255
  let g := color.2.1 / 255
  let b := color.2.2 / 255
  let max_val := max r (max g b)
  let min_val := min r (min g b)
  if max_val = 0 then 0 else (max_val - min_val) / max_val

/-- The cluster score `frequency ** 0.7 * (1 + saturation * 2)`. -/
noncomputable def cluster_score (d : ClusterData) : ℝ :=
  (d.frequency : ℝ) ^ (0.7 : ℝ) * (1 + (color_saturation d.color : ℝ) * 2)

/-- The `is_distinct` check of the selection loops: a candidate is distinct
when no already-selected color is at distance `< 30` (squared `< 900`). -/
def is_distinct_from (color : ℚ × ℚ × ℚ) (selected : List (ℚ × ℚ × ℚ)) : Bool :=
  selected.all (fun s => decide (900 ≤ color_distance_sq color s))

/-- First selection pass: walk the high-saturation clusters, append each
distinct candidate, and break once `num_colors` colors are selected (the
break is checked after the append attempt, as in the source). -/
def select_pass_high (num_colors : ℕ) : List ClusterData → List (ℚ × ℚ × ℚ) → List (ℚ × ℚ × ℚ)
  | [], selected => selected
  | d :: rest, selected =>
    let selected' := if is_distinct_from d.color selected then selected ++ [d.color] else selected
    if num_colors ≤ selected'.length then selected'
    else select_pass_high num_colors rest selected'

/-- Second selection pass: walk the low-saturation clusters, breaking at the
top of each iteration once `num_colors` colors are selected, appending each
distinct candidate otherwise. -/
def select_pass_low (num_colors : ℕ) : List ClusterData → List (ℚ × ℚ × ℚ) → List (ℚ × ℚ × ℚ)
  | [], selected => selected
  | d :: rest, selected =>
    if num_colors ≤ selected.length then selected
    else
      let selected' := if is_distinct_from d.color selected then selected ++ [d.color] else selected
      select_pass_low num_colors rest selected'

/-- Selection stage of `extract_color_palette`: sort all clusters by score
descending (stable), split into high-saturation (`> 0.4`) and the rest, then
run the two greedy passes. -/
noncomputable def select_palette_colors (clusters : List ClusterData) (num_colors : ℕ) :
    List (ℚ × ℚ × ℚ) :=
  let sorted := sortByDesc cluster_score clusters
  let high_sat := sorted.filter (fun d => decide ((2 : ℚ) / 5 < color_saturation d.color))
  let low_sat := sorted.filter (fun d => decide (color_saturation d.color ≤ (2 : ℚ) / 5))
  select_pass_low num_colors low_sat (select_pass_high num_colors high_sat [])

/-- Two lowercase hex digits of one channel (`f"{r:02x}"`); the center value
is truncated to an integer first (`astype(int)`; centers are non-negative, so
truncation is the floor). -/
def hexByteChars (n : ℕ) : List Char :=
  let s := Nat.toDigits 16 n
  if s.length < 2 then '0' :: s else s

/-- `#rrggbb` rendering of a selected cluster center. -/
def color_to_hex (c : ℚ × ℚ × ℚ) : String :=
  "#" ++ (hexByteChars (Int.toNat ⌊c.1⌋)).asString ++
    (hexByteChars (Int.toNat ⌊c.2.1⌋)).asString ++
    (hexByteChars (Int.toNat ⌊c.2.2⌋)).asString

/-- `extract_color_palette` on an RGBA image: keep pixels with alpha
`> 128`, return `[]` when none qualifies, otherwise cluster the kept colors
and run the scored greedy selection, rendering the result as hex strings. -/
noncomputable def extract_color_palette (pixels : List RGBA)
    (kmeans : List (ℕ × ℕ × ℕ) → List ClusterData) (num_colors : ℕ) : List String :=
  let kept := pixels.filter (fun p => decide (128 < p.alpha))
  if kept.isEmpty then []
  else
    (select_palette_colors (kmeans (kept.map (fun p => (p.r, p.g, p.b)))) num_colors).map
      color_to_hex

/-- All selected colors are pairwise at squared distance `≥ 900`
(Euclidean distance `≥ 30`). -/
def PairwiseFar (l : List (ℚ × ℚ × ℚ)) : Prop :=
  l.Pairwise (fun c1 c2 => 900 ≤ color_distance_sq c1 c2)

theorem pairwiseFar_append (sel : List (ℚ × ℚ × ℚ)) (c : ℚ × ℚ × ℚ)
    (h : PairwiseFar sel) (hc : is_distinct_from c sel = true) :
    PairwiseFar (sel ++ [c]) := by
  rw [PairwiseFar, List.pairwise_append]
  refine ⟨h, List.pairwise_singleton _ _, ?_⟩
  intro a ha b hb
  rw [List.mem_singleton] at hb
  subst hb
  rw [is_distinct_from, List.all_eq_true] at hc
  have := hc a ha
  rw [decide_eq_true_iff] at this
  rw [color_distance_sq_comm]
  exact this

theorem select_pass_high_pairwise (n : ℕ) (l : List ClusterData)
    (sel : List (ℚ × ℚ × ℚ)) (h : PairwiseFar sel) :
    PairwiseFar (select_pass_high n l sel) := by
  induction l generalizing sel with
  | nil => exact h
  | cons d rest ih =>
    rw [select_pass_high]
    by_cases hd : is_distinct_from d.color sel = true
    · simp only [if_pos hd]
      have h' := pairwiseFar_append sel d.color h hd
      split
      · exact h'
      · exact ih _ h'
    · simp only [if_neg hd]
      split
      · exact h
      · exact ih _ h

theorem select_pass_low_pairwise (n : ℕ) (l : List ClusterData)
    (sel : List (ℚ × ℚ × ℚ)) (h : PairwiseFar sel) :
    PairwiseFar (select_pass_low n l sel) := by
  induction l generalizing sel with
  | nil => exact h
  | cons d rest ih =>
    rw [select_pass_low]
    split
    · exact h
    · by_cases hd : is_distinct_from d.color sel = true
      · simp only [if_pos hd]
        exact ih _ (pairwiseFar_append sel d.color h hd)
      · simp only [if_neg hd]
        exact ih _ h

theorem select_pass_high_length (n : ℕ) (l : List ClusterData)
    (sel : List (ℚ × ℚ × ℚ)) (h : sel.length < n) :
    (select_pass_high n l sel).length ≤ n := by
  induction l generalizing sel with
  | nil => exact le_of_lt h
  | cons d rest ih =>
    rw [select_pass_high]
    have hlen : (sel ++ [d.color]).length = sel.length + 1 := by simp
    by_cases hd : is_distinct_from d.color sel = true
    · rw [if_pos hd]
      by_cases hcap : n ≤ (sel ++ [d.color]).length
      · rw [if_pos hcap]
        omega
      · rw [if_neg hcap]
        apply ih
        omega
    · rw [if_neg hd]
      by_cases hcap : n ≤ sel.length
      · rw [if_pos hcap]
        omega
      · rw [if_neg hcap]
        exact ih _ h

theorem select_pass_low_length (n : ℕ) (l : List ClusterData)
    (sel : List (ℚ × ℚ × ℚ)) (h : sel.length ≤ n) :
    (select_pass_low n l sel).length ≤ n := by
  induction l generalizing sel with
  | nil => exact h
  | cons d rest ih =>
    rw [select_pass_low]
    have hlen : (sel ++ [d.color]).length = sel.length + 1 := by simp
    by_cases hcap : n ≤ sel.length
    · rw [if_pos hcap]
      exact h
    · rw [if_neg hcap]
      by_cases hd : is_distinct_from d.color sel = true
      · rw [if_pos hd]
        apply ih
        omega
      · rw [if_neg hd]
        exact ih _ h

theorem select_palette_colors_length (clusters : List ClusterData) (n : ℕ) (hn : 0 < n) :
    (select_palette_colors clusters n).length ≤ n := by
  unfold select_palette_colors
  exact select_pass_low_length n _ _ (select_pass_high_length n _ [] (by simpa using hn))

theorem select_palette_colors_pairwise (clusters : List ClusterData) (n : ℕ) :
    PairwiseFar (select_palette_colors clusters n) := by
  unfold select_palette_colors
  exact select_pass_low_pairwise n _ _
    (select_pass_high_pairwise n _ [] List.Pairwise.nil)

/-- C7: for every RGBA pixel list and every clustering outcome, the extracted
palette has at most 5 entries; the selected colors (for ANY cluster list) are
pairwise at RGB distance at least 30 (squared distance at least 900), so no
two returned colors are closer than 30; and when no pixel qualifies — every
pixel has alpha at most 50% — the palette is the empty list. -/
theorem extract_color_palette_spec (pixels : List RGBA)
    (kmeans : List (ℕ × ℕ × ℕ) → List ClusterData) :
    (extract_color_palette pixels kmeans 5).length ≤ 5 ∧
    (∀ clusters : List ClusterData, PairwiseFar (select_palette_colors clusters 5)) ∧
    ((∀ p ∈ pixels, 2 * p.alpha ≤ 255) → extract_color_palette pixels kmeans 5 = []) := by
  refine ⟨?_, fun clusters => select_palette_colors_pairwise clusters 5, ?_⟩
  · simp only [extract_color_palette]
    split
    · simp
    · rw [List.length_map]
      exact select_palette_colors_length _ 5 (by norm_num)
  · intro h
    have hkept : pixels.filter (fun p => decide (128 < p.alpha)) = [] := by
      rw [List.filter_eq_nil_iff]
      intro p hp
      have := h p hp
      simp only [decide_eq_true_iff]
      omega
    simp [extract_color_palette, hkept]

/-- Witness for C7: a single fully transparent pixel yields the empty
palette. -/
theorem extract_color_palette_spec_witness :
    (∀ p ∈ [RGBA.mk 10 20 30 0], 2 * p.alpha ≤ 255) ∧
    extract_color_palette [RGBA.mk 10 20 30 0] (fun _ => []) 5 = [] :=
  ⟨by decide, (extract_color_palette_spec [RGBA.mk 10 20 30 0] (fun _ => [])).2.2 (by decide)⟩

/-! ## Lifecycle state model (`routers/singles.py`, `routers/matches.py`)

The mounted FastAPI application (`app/main.py`) wires the `auth`, `singles`
and `matches` routers; the claims about upload, search, match confirmation
and deletion are settled against those handlers.  Database rows are modelled
by records, the ORM session by explicit state passing, and the upload
directory by the list of existing file paths.  Each handler returns the new
state together with `Except`-style success or the HTTP error it raises;
handlers raise before mutating, so the error cases return the input state. -/

/-- A row of the `socks` table (`app/models.py`); the embedding column is
`LargeBinary`, modelled as the stored byte string. -/
structure SockRec where
  id : ℕ
  owner_id : ℕ
  user_sequence_id : ℕ
  image_path : String
  image_no_bg_path : Option String
  color_palette : Option (List String)
  embedding : List ℕ
  is_matched : Bool
deriving DecidableEq

/-- A row of the `matches` table (`app/models.py`): besides the two sock
references it has `user_id` and `user_sequence_id` columns, both declared
`nullable=False` (and made NOT NULL by migration 005).  They are `Option`s
here because the ORM object can hold `None` in them before a commit — the
database then rejects the insert.  The timestamp column is untouched by the
claims. -/
structure MatchRec where
  id : ℕ
  user_id : Option ℕ
  user_sequence_id : Option ℕ
  sock1_id : ℕ
  sock2_id : ℕ
deriving DecidableEq

/-- Database plus upload directory. -/
structure AppState where
  socks : List SockRec
  «matches» : List MatchRec
  files : List String
deriving DecidableEq

/-- The `HTTPException` status classes raised by the handlers. -/
inductive ApiError where
  | notFound
  | forbidden
  | badRequest
  | serverError
deriving DecidableEq

/-- Whether an operation succeeded. -/
def isOk {ε α : Type} : Except ε α → Bool
  | .ok _ => true
  | .error _ => false

/-- `db.query(Sock).filter(Sock.id == sock_id).first()`. -/
def findSock (st : AppState) (sock_id : ℕ) : Option SockRec :=
  st.socks.find? (fun s => s.id == sock_id)

/-- `db.query(Match).filter(Match.id == match_id).first()`. -/
def findMatch (st : AppState) (match_id : ℕ) : Option MatchRec :=
  st.«matches».find? (fun m => m.id == match_id)

/-- Whether a match row satisfies the NOT NULL constraints of the `matches`
table: `models.py` declares `user_id` and `user_sequence_id` with
`nullable=False` (migration 005 enforces the same), and
`Base.metadata.create_all` builds the schema from these models, so
`db.commit()` raises `IntegrityError` for a row leaving either null. -/
def matchRowInsertable (m : MatchRec) : Bool :=
  m.user_id.isSome && m.user_sequence_id.isSome

/-- `create_match` (`routers/matches.py`, `POST /matches`): look up both
socks, reject missing socks (404), foreign owners (403), already-matched
socks (400) and identical ids (400), in that order; otherwise build
`Match(sock1_id=..., sock2_id=...)` — leaving the NOT NULL `user_id` and
`user_sequence_id` columns unset — flag both socks matched and commit.  The
commit either persists everything or raises `IntegrityError`, in which case
the handler (which has no try/except) surfaces a 500 and the transaction is
rolled back with no state change. -/
def create_match (st : AppState) (current_user : ℕ) (new_match_id : ℕ)
    (sock1_id sock2_id : ℕ) : AppState × Except ApiError MatchRec :=
  match findSock st sock1_id, findSock st sock2_id with
  | some sock1, some sock2 =>
    if sock1.owner_id ≠ current_user ∨ sock2.owner_id ≠ current_user then
      (st, .error .forbidden)
    else if sock1.is_matched = true ∨ sock2.is_matched = true then
      (st, .error .badRequest)
    else if sock1.id = sock2.id then
      (st, .error .badRequest)
    else if matchRowInsertable ⟨new_match_id, none, none, sock1_id, sock2_id⟩ then
      ({ st with
          socks := st.socks.map (fun s =>
            if s.id = sock1_id ∨ s.id = sock2_id then { s with is_matched := true } else s),
          «matches» := st.«matches» ++ [⟨new_match_id, none, none, sock1_id, sock2_id⟩] },
        .ok ⟨new_match_id, none, none, sock1_id, sock2_id⟩)
    else
      (st, .error .serverError)
  | _, _ => (st, .error .notFound)

/-- `delete_sock` (`routers/singles.py`, `DELETE /singles/{id}`): 404 when
missing, 403 for a foreign owner, 400 for a matched sock (all raised before
any mutation); otherwise delete the image file, the background-removed file
when present, and the row. -/
def delete_sock (st : AppState) (current_user : ℕ) (sock_id : ℕ) :
    AppState × Except ApiError Unit :=
  match findSock st sock_id with
  | none => (st, .error .notFound)
  | some sock =>
    if sock.owner_id ≠ current_user then (st, .error .forbidden)
    else if sock.is_matched = true then (st, .error .badRequest)
    else
      ({ st with
          socks := st.socks.filter (fun s => s.id != sock_id),
          files :=
            match sock.image_no_bg_path with
            | some p => (st.files.filter (fun f => f != sock.image_path)).filter (fun f => f != p)
            | none => st.files.filter (fun f => f != sock.image_path) },
        .ok ())

/-- `delete_match` (`routers/matches.py`, `DELETE /matches/{id}`): 404 when
the match is missing, 403 for a foreign owner; with `decouple` clear both
matched flags and delete only the match row; otherwise delete each sock's
(original) image file, the match row and both sock rows. -/
def delete_match (st : AppState) (current_user : ℕ) (match_id : ℕ) (decouple : Bool) :
    AppState × Except ApiError Unit :=
  match findMatch st match_id with
  | none => (st, .error .notFound)
  | some m =>
    match findSock st m.sock1_id, findSock st m.sock2_id with
    | some sock1, some sock2 =>
      if sock1.owner_id ≠ current_user ∨ sock2.owner_id ≠ current_user then
        (st, .error .forbidden)
      else if decouple then
        ({ st with
            socks := st.socks.map (fun s =>
              if s.id = m.sock1_id ∨ s.id = m.sock2_id then { s with is_matched := false } else s),
            «matches» := st.«matches».filter (fun x => x.id != m.id) },
          .ok ())
      else
        ({ st with
            socks := st.socks.filter (fun s => s.id != m.sock1_id && s.id != m.sock2_id),
            «matches» := st.«matches».filter (fun x => x.id != m.id),
            files := (st.files.filter (fun f => f != sock1.image_path)).filter
              (fun f => f != sock2.image_path) },
          .ok ())
    | _, _ => (st, .error .serverError)

/-- `upload_sock` (`routers/singles.py`, `POST /singles/upload`): save the
file, then run `embedding_service.create_embedding`; on failure remove the
saved file and raise 500 (no sock row, no embedding); on success compute the
next per-owner sequence id (`max + 1`) and insert the sock row with the raw
embedding bytes, no background-removed image and no palette.  The outcome of
the embedding call is passed in as an `Except`. -/
def upload_sock (st : AppState) (current_user : ℕ) (new_sock_id : ℕ) (file_path : String)
    (embed : Except String (List ℕ)) : AppState × Except ApiError SockRec :=
  match embed with
  | .error _ =>
    ({ st with files := (st.files ++ [file_path]).filter (fun f => f != file_path) },
      .error .serverError)
  | .ok embedding_bytes =>
    ({ st with
        socks := st.socks ++ [⟨new_sock_id, current_user,
          (((st.socks.filter (fun s => s.owner_id == current_user)).map
            (fun s => s.user_sequence_id)).foldl max 0) + 1,
          file_path, none, none, embedding_bytes, false⟩],
        files := st.files ++ [file_path] },
      .ok ⟨new_sock_id, current_user,
        (((st.socks.filter (fun s => s.owner_id == current_user)).map
          (fun s => s.user_sequence_id)).foldl max 0) + 1,
        file_path, none, none, embedding_bytes, false⟩)

/-- `process_background_removal` (`routers/singles.py`): the fire-and-forget
background task.  Any exception is caught and only logged, leaving the state
untouched; on success the background-removed file is written and the sock row
gets its path and the extracted palette (`None` when the palette is empty).
The outcome of the `rembg`/palette step is passed in as an `Except`. -/
def process_background_removal (st : AppState) (sock_id : ℕ)
    (bg : Except String (String × List String)) : AppState :=
  match bg with
  | .error _ => st
  | .ok (file_path_no_bg, color_palette) =>
    { st with
        files := st.files ++ [file_path_no_bg],
        socks := st.socks.map (fun s =>
          if s.id = sock_id then
            { s with
                image_no_bg_path := some file_path_no_bg,
                color_palette := if color_palette.isEmpty then none else some color_palette }
          else s) }

/-- The `is_processing_complete` field of every sock response
(`routers/singles.py`): both the background-removed path and the palette are
present. -/
def is_processing_complete (s : SockRec) : Bool :=
  s.image_no_bg_path.isSome && s.color_palette.isSome

/-- The candidate set of `search_by_sock_id`: the caller's unmatched socks
other than the query sock. -/
def searchCandidates (st : AppState) (current_user : ℕ) (sock_id : ℕ) : List SockRec :=
  st.socks.filter (fun s => s.owner_id == current_user && !s.is_matched && s.id != sock_id)

/-- `search_by_sock_id` (`routers/singles.py`, `GET /singles/{id}/search`):
score every candidate against the query sock's stored raw embedding, sort by
similarity descending, return the top `limit`.  The byte-decoding plus
float similarity composite
(`embedding_from_bytes` + `calculate_similarity`) is abstracted as `sim`. -/
noncomputable def search_by_sock_id (sim : List ℕ → List ℕ → ℝ) (st : AppState)
    (current_user : ℕ) (sock_id : ℕ) (limit : ℕ) : Except ApiError (List (ℕ × ℝ)) :=
  match findSock st sock_id with
  | none => .error .notFound
  | some sock =>
    if sock.owner_id ≠ current_user then .error .forbidden
    else
      .ok ((sortByDesc Prod.snd ((searchCandidates st current_user sock_id).map
        (fun other => (other.id, sim sock.embedding other.embedding)))).take limit)

theorem findSock_id (st : AppState) (sock_id : ℕ) (s : SockRec)
    (h : findSock st sock_id = some s) : s.id = sock_id := by
  unfold findSock at h
  simpa using List.find?_some h

theorem take_eq_of_length_le {α : Type} : ∀ (l : List α) (n : ℕ), l.length ≤ n → l.take n = l
  | [], _, _ => by simp
  | a :: l, 0, h => by simp at h
  | a :: l, n + 1, h => by
    simp only [List.take_succ_cons, List.cons.injEq, true_and]
    exact take_eq_of_length_le l n (by simpa using h)

/-- Test fixture: two unmatched socks of owner 7. -/
def sockA : SockRec := ⟨1, 7, 1, "a.jpg", none, none, [0], false⟩

/-- Test fixture companion of `sockA`. -/
def sockB : SockRec := ⟨2, 7, 2, "b.jpg", none, none, [1], false⟩

/-- Test fixture state holding `sockA` and `sockB`. -/
def stAB : AppState := ⟨[sockA, sockB], [], ["a.jpg", "b.jpg"]⟩

/-- C2 (code bug): the rejection checks of `create_match` do fire before any
mutation, but the success path of the claim can never complete: the handler
builds the match row without the NOT NULL `matches.user_id` and
`matches.user_sequence_id` columns, so `db.commit()` raises `IntegrityError`,
the request fails with a 500 and the transaction rolls back.  First conjunct:
EVERY call errors and returns the state unchanged — no call ever sets a sock
matched.  Remaining conjuncts evaluate the failing input: both fixture socks
exist, are unmatched, distinct and owned by the caller — every validation
check passes — yet the call returns the 500 and the state, including both
matched flags, is unchanged. -/
theorem create_match_integrity_error :
    (∀ (st : AppState) (current_user new_match_id sock1_id sock2_id : ℕ),
      isOk (create_match st current_user new_match_id sock1_id sock2_id).2 = false ∧
      (create_match st current_user new_match_id sock1_id sock2_id).1 = st) ∧
    sockA.is_matched = false ∧ sockB.is_matched = false ∧
    sockA.owner_id = 7 ∧ sockB.owner_id = 7 ∧ sockA.id ≠ sockB.id ∧
    findSock stAB 1 = some sockA ∧ findSock stAB 2 = some sockB ∧
    (create_match stAB 7 10 1 2).2 = .error .serverError ∧
    (create_match stAB 7 10 1 2).1 = stAB := by
  refine ⟨?_, by decide, by decide, by decide, by decide, by decide, rfl, rfl, rfl, rfl⟩
  intro st current_user new_match_id sock1_id sock2_id
  unfold create_match
  cases hf1 : findSock st sock1_id with
  | none => exact ⟨rfl, rfl⟩
  | some s1 =>
    cases hf2 : findSock st sock2_id with
    | none => exact ⟨rfl, rfl⟩
    | some s2 =>
      dsimp only
      by_cases hown : s1.owner_id ≠ current_user ∨ s2.owner_id ≠ current_user
      · rw [if_pos hown]
        exact ⟨rfl, rfl⟩
      · rw [if_neg hown]
        by_cases hmat : s1.is_matched = true ∨ s2.is_matched = true
        · rw [if_pos hmat]
          exact ⟨rfl, rfl⟩
        · rw [if_neg hmat]
          by_cases heq : s1.id = s2.id
          · rw [if_pos heq]
            exact ⟨rfl, rfl⟩
          · rw [if_neg heq,
              if_neg (by simp [matchRowInsertable] :
                ¬(matchRowInsertable ⟨new_match_id, none, none, sock1_id, sock2_id⟩ = true))]
            exact ⟨rfl, rfl⟩

/-- C3: `delete_sock` on a matched sock is rejected — with the 400
"unmatch first" error when the caller owns the sock — and the state
(rows, partner, files) is returned unchanged. -/
theorem delete_sock_matched_rejected (st : AppState) (current_user sock_id : ℕ) (s : SockRec)
    (hfind : findSock st sock_id = some s) (hmat : s.is_matched = true) :
    (delete_sock st current_user sock_id).1 = st ∧
    isOk (delete_sock st current_user sock_id).2 = false ∧
    (s.owner_id = current_user →
      (delete_sock st current_user sock_id).2 = .error .badRequest) := by
  unfold delete_sock
  rw [hfind]
  dsimp only
  by_cases hown : s.owner_id ≠ current_user
  · rw [if_pos hown]
    exact ⟨rfl, rfl, fun h => absurd h hown⟩
  · rw [if_neg hown, if_pos hmat]
    exact ⟨rfl, rfl, fun _ => rfl⟩

/-- Test fixture: a matched pair of owner 7; the first sock also has a
background-removed image file on disk. -/
def sockM1 : SockRec := ⟨1, 7, 1, "a.jpg", some "a_nb.png", none, [0], true⟩

/-- Test fixture companion of `sockM1`. -/
def sockM2 : SockRec := ⟨2, 7, 2, "b.jpg", none, none, [1], true⟩

/-- Test fixture state holding the matched pair and all three image files. -/
def stMatched : AppState := ⟨[sockM1, sockM2], [⟨10, some 7, some 1, 1, 2⟩], ["a.jpg", "a_nb.png", "b.jpg"]⟩

/-- Witness for C3: deleting the matched fixture sock is rejected and changes
nothing. -/
theorem delete_sock_matched_rejected_witness :
    findSock stMatched 1 = some sockM1 ∧ sockM1.is_matched = true ∧
    (delete_sock stMatched 7 1).1 = stMatched :=
  ⟨rfl, rfl, (delete_sock_matched_rejected stMatched 7 1 sockM1 rfl rfl).1⟩

/-- C4 (amended): for an existing match whose two socks exist and belong to
the caller, `delete_match` with `decouple=true` leaves both rows present
(same row count, both flagged unmatched) and removes only the match row,
touching no file; with `decouple=false` it removes both sock rows, the match
row and the two socks' ORIGINAL image files — the files list loses exactly
`image_path` of each sock, so a background-removed image file is NOT
removed. -/
theorem delete_match_spec (st : AppState) (current_user match_id : ℕ) (m : MatchRec)
    (s1 s2 : SockRec)
    (hm : findMatch st match_id = some m)
    (h1 : findSock st m.sock1_id = some s1) (h2 : findSock st m.sock2_id = some s2)
    (ho1 : s1.owner_id = current_user) (ho2 : s2.owner_id = current_user) :
    ((delete_match st current_user match_id true).2 = .ok () ∧
      (delete_match st current_user match_id true).1.«matches» =
        st.«matches».filter (fun x => x.id != m.id) ∧
      (delete_match st current_user match_id true).1.files = st.files ∧
      (delete_match st current_user match_id true).1.socks.length = st.socks.length ∧
      (∀ s ∈ (delete_match st current_user match_id true).1.socks,
        (s.id = m.sock1_id ∨ s.id = m.sock2_id) → s.is_matched = false)) ∧
    ((delete_match st current_user match_id false).2 = .ok () ∧
      (delete_match st current_user match_id false).1.socks =
        st.socks.filter (fun s => s.id != m.sock1_id && s.id != m.sock2_id) ∧
      (delete_match st current_user match_id false).1.«matches» =
        st.«matches».filter (fun x => x.id != m.id) ∧
      (delete_match st current_user match_id false).1.files =
        (st.files.filter (fun f => f != s1.image_path)).filter
          (fun f => f != s2.image_path)) := by
  have hown : ¬(s1.owner_id ≠ current_user ∨ s2.owner_id ≠ current_user) := by
    push_neg
    exact ⟨ho1, ho2⟩
  unfold delete_match
  rw [hm]
  dsimp only
  rw [h1, h2]
  dsimp only
  rw [if_pos (rfl : (true : Bool) = true), if_neg (by simp : ¬((false : Bool) = true)),
    if_neg hown, if_neg hown]
  constructor
  · refine ⟨rfl, rfl, rfl, List.length_map _ _, ?_⟩
    intro s hs hsid
    rw [List.mem_map] at hs
    obtain ⟨t, ht, hft⟩ := hs
    by_cases hcond : t.id = m.sock1_id ∨ t.id = m.sock2_id
    · rw [if_pos hcond] at hft
      rw [← hft]
    · rw [if_neg hcond] at hft
      subst hft
      exact absurd hsid hcond
  · exact ⟨rfl, rfl, rfl, rfl⟩

/-- C4 counterexample: on the matched fixture pair, `delete_match` with
`decouple=false` removes both sock rows, the match row and the two original
image files, but the first sock's background-removed image file
`a_nb.png` is still present afterwards — the operation does not remove all of
the socks' image files. -/
theorem delete_match_leaves_no_bg_file :
    (delete_match stMatched 7 10 false).2 = .ok () ∧
    (delete_match stMatched 7 10 false).1.socks = [] ∧
    (delete_match stMatched 7 10 false).1.«matches» = [] ∧
    sockM1.image_no_bg_path = some "a_nb.png" ∧
    (delete_match stMatched 7 10 false).1.files = ["a_nb.png"] :=
  ⟨rfl, rfl, rfl, rfl, rfl⟩

/-- Witness for C4 on the matched fixture pair: decoupling keeps both rows
and the files untouched. -/
theorem delete_match_spec_witness :
    findMatch stMatched 10 = some ⟨10, some 7, some 1, 1, 2⟩ ∧
    findSock stMatched 1 = some sockM1 ∧ findSock stMatched 2 = some sockM2 ∧
    (delete_match stMatched 7 10 true).1.socks.length = stMatched.socks.length ∧
    (delete_match stMatched 7 10 true).1.files = stMatched.files :=
  ⟨rfl, rfl, rfl,
    (delete_match_spec stMatched 7 10 ⟨10, some 7, some 1, 1, 2⟩ sockM1 sockM2 rfl rfl rfl rfl rfl).1.2.2.2.1,
    (delete_match_spec stMatched 7 10 ⟨10, some 7, some 1, 1, 2⟩ sockM1 sockM2 rfl rfl rfl rfl rfl).1.2.2.1⟩

/-- C5: when the embedding (or image decode) step fails, `upload_sock`
returns the error to the caller and leaves no state behind: the already-saved
image file is removed (the file list returns to its previous value, given
that the freshly generated path was new) and no sock row or embedding is
persisted (the whole state equals the input state). -/
theorem upload_sock_failure_rolls_back (st : AppState) (current_user new_sock_id : ℕ)
    (file_path : String) (e : String) (hfp : file_path ∉ st.files) :
    (upload_sock st current_user new_sock_id file_path (.error e)).1 = st ∧
    isOk (upload_sock st current_user new_sock_id file_path (.error e)).2 = false := by
  constructor
  · unfold upload_sock
    dsimp only
    have hfiles : (st.files ++ [file_path]).filter (fun f => f != file_path) = st.files := by
      rw [List.filter_append]
      have hself : st.files.filter (fun f => f != file_path) = st.files := by
        apply List.filter_eq_self.mpr
        intro a ha
        simp only [bne_iff_ne, ne_eq, decide_eq_true_eq]
        intro hh
        exact hfp (hh ▸ ha)
      have hone : [file_path].filter (fun f => f != file_path) = [] := by simp
      rw [hself, hone, List.append_nil]
    rw [hfiles]
  · rfl

/-- Witness for C5: a failing upload into the two-sock fixture state changes
nothing. -/
theorem upload_sock_failure_rolls_back_witness :
    "c.jpg" ∉ stAB.files ∧
    (upload_sock stAB 7 3 "c.jpg" (.error "decode failed")).1 = stAB :=
  ⟨by decide, (upload_sock_failure_rolls_back stAB 7 3 "c.jpg" "decode failed" (by decide)).1⟩

theorem find?_append_of_none {α : Type} (p : α → Bool) (l1 l2 : List α)
    (h : ∀ x ∈ l1, p x = false) : (l1 ++ l2).find? p = l2.find? p := by
  induction l1 with
  | nil => rfl
  | cons a l ih =>
    rw [List.cons_append, List.find?_cons_of_neg, ih]
    · intro x hx
      exact h x (List.mem_cons_of_mem a hx)
    · simp [h a (List.mem_cons_self a l)]

/-- The state after a successful upload followed by a failing
background-removal task (the scenario of the claim). -/
def afterUploadBgFailure (st : AppState) (current_user new_sock_id : ℕ)
    (file_path : String) (emb : List ℕ) (msg : String) : AppState :=
  process_background_removal
    (upload_sock st current_user new_sock_id file_path (.ok emb)).1
    new_sock_id (.error msg)

/-- C6: when the background-removal task raises after a successful upload,
the exception is swallowed (the task changes nothing), the sock row still
exists with its raw embedding, `is_processing_complete` reported `false` and
a null color palette, and the sock is still returned by the search endpoint
(scored from its raw embedding) whenever the result cap does not cut it
off. -/
theorem background_failure_sock_still_searchable (st : AppState)
    (current_user new_sock_id : ℕ) (file_path : String) (emb : List ℕ) (msg : String)
    (sim : List ℕ → List ℕ → ℝ) (query_id limit : ℕ) (q : SockRec)
    (hfresh : ∀ s ∈ st.socks, s.id ≠ new_sock_id)
    (hq : findSock (afterUploadBgFailure st current_user new_sock_id file_path emb msg)
      query_id = some q)
    (hqown : q.owner_id = current_user)
    (hqid : query_id ≠ new_sock_id)
    (hlim : (searchCandidates (afterUploadBgFailure st current_user new_sock_id file_path emb msg)
      current_user query_id).length ≤ limit) :
    afterUploadBgFailure st current_user new_sock_id file_path emb msg =
      (upload_sock st current_user new_sock_id file_path (.ok emb)).1 ∧
    (∃ ns : SockRec,
      findSock (afterUploadBgFailure st current_user new_sock_id file_path emb msg)
        new_sock_id = some ns ∧
      ns.embedding = emb ∧
      is_processing_complete ns = false ∧
      ns.color_palette = none ∧
      ns.is_matched = false) ∧
    (∃ results : List (ℕ × ℝ),
      search_by_sock_id sim (afterUploadBgFailure st current_user new_sock_id file_path emb msg)
        current_user query_id limit = .ok results ∧
      (new_sock_id, sim q.embedding emb) ∈ results) := by
  have hstate : afterUploadBgFailure st current_user new_sock_id file_path emb msg =
      (upload_sock st current_user new_sock_id file_path (.ok emb)).1 := rfl
  refine ⟨hstate, ?_, ?_⟩
  · refine ⟨⟨new_sock_id, current_user,
      (((st.socks.filter (fun s => s.owner_id == current_user)).map
        (fun s => s.user_sequence_id)).foldl max 0) + 1,
      file_path, none, none, emb, false⟩, ?_, rfl, rfl, rfl, rfl⟩
    rw [hstate]
    unfold findSock upload_sock
    dsimp only
    rw [find?_append_of_none]
    · simp
    · intro x hx
      simp only [beq_eq_false_iff_ne, ne_eq]
      exact hfresh x hx
  · unfold search_by_sock_id
    rw [hq]
    dsimp only
    rw [if_neg (by simp [hqown] : ¬(q.owner_id ≠ current_user))]
    refine ⟨_, rfl, ?_⟩
    have hlen : (sortByDesc Prod.snd
        ((searchCandidates (afterUploadBgFailure st current_user new_sock_id file_path emb msg)
          current_user query_id).map
          (fun other => (other.id, sim q.embedding other.embedding)))).length ≤ limit := by
      rw [length_sortByDesc, List.length_map]
      exact hlim
    rw [take_eq_of_length_le _ _ hlen, mem_sortByDesc, List.mem_map]
    refine ⟨⟨new_sock_id, current_user,
      (((st.socks.filter (fun s => s.owner_id == current_user)).map
        (fun s => s.user_sequence_id)).foldl max 0) + 1,
      file_path, none, none, emb, false⟩, ?_, rfl⟩
    rw [hstate]
    unfold searchCandidates upload_sock
    dsimp only
    rw [List.filter_append]
    apply List.mem_append_right
    simp [hqid, Ne.symm hqid]

/-- Test fixture: one unmatched sock of owner 7 used as the search query. -/
def sockQ : SockRec := ⟨1, 7, 1, "q.jpg", none, none, [5], false⟩

/-- Test fixture state holding only `sockQ`. -/
def stQ : AppState := ⟨[sockQ], [], ["q.jpg"]⟩

/-- Witness for C6: upload sock 2 into the fixture, fail its background
removal, and find it in the search results for sock 1. -/
theorem background_failure_sock_still_searchable_witness :
    (∀ s ∈ stQ.socks, s.id ≠ 2) ∧
    findSock (afterUploadBgFailure stQ 7 2 "s.jpg" [9] "boom") 1 = some sockQ ∧
    sockQ.owner_id = 7 ∧ (1 : ℕ) ≠ 2 ∧
    (searchCandidates (afterUploadBgFailure stQ 7 2 "s.jpg" [9] "boom") 7 1).length ≤ 10 ∧
    (∃ results : List (ℕ × ℝ),
      search_by_sock_id (fun _ _ => (0 : ℝ)) (afterUploadBgFailure stQ 7 2 "s.jpg" [9] "boom")
        7 1 10 = .ok results ∧
      (2, (fun _ _ => (0 : ℝ)) sockQ.embedding [9]) ∈ results) :=
  ⟨by decide, rfl, rfl, by decide, by decide,
    (background_failure_sock_still_searchable stQ 7 2 "s.jpg" [9] "boom"
      (fun _ _ => (0 : ℝ)) 1 10 sockQ (by decide) rfl rfl (by decide) (by decide)).2.2⟩

end SockGraveyard
